import Mathlib

/-!
Verification development for the `fairly` research-data toolset core
(spec sections 3-7: pattern resolver, metadata normalizer, manifest store,
repository client, sync engine).  The Python implementation of the core is
not part of the source tree available here; the definitions below are
modelled from the specification document, with the Zenodo controlled
vocabularies taken from the Zenodo metadata template shipped in the
repository and the observed `url` / Figshare-delete behaviour taken from
the bug reports shipped in the repository.
-/

deriving instance DecidableEq for Except

namespace Fairly

/-! ## Error taxonomy (spec section 7)

Modelled from the spec: the error taxonomy of section 7, plus `valueError`
for Python's builtin `ValueError`, which the repository's bug report says
the Figshare backend raises on dataset deletion. -/

inductive FairlyError where
  | validationError (field : String)
  | capabilityError (op : String)
  | conflictError (msg : String)
  | transientNetworkError
  | notFoundError
  | valueError (msg : String)
deriving DecidableEq, Repr

/-! ## Pattern resolver (spec section 4.1) -/

/-- Matching a pattern against a non-empty path `c :: cs`, given a
function `matchRest` that matches any pattern against the tail `cs`.
A `**` either stops consuming (match the rest of the pattern against
`c :: cs`) or consumes `c`; a `*` does the same but may not consume a
forward slash; a literal pattern character must equal `c`. -/
def globConsMatch (matchRest : List Char → Bool) (c : Char) :
    List Char → Bool
  | [] => false
  | '*' :: '*' :: ps =>
    globConsMatch matchRest c ps || matchRest ('*' :: '*' :: ps)
  | '*' :: ps =>
    globConsMatch matchRest c ps ||
      (!(c = '/') && matchRest ('*' :: ps))
  | p :: ps => p = c && matchRest ps

/-- Modelled from the spec: glob matching for include/exclude patterns.
Patterns support `*` (any run of characters within one path segment,
i.e. not crossing a forward slash), `**` (any run of characters, crossing
segment boundaries) and literal characters; paths are matched in
forward-slash normalized form.  An empty path is matched exactly by the
patterns made of wildcards only. -/
def globMatch : List Char → List Char → Bool
  | ps, [] => ps.all (fun p => p = '*')
  | ps, c :: cs => globConsMatch (fun ps2 => globMatch ps2 cs) c ps

/-- A pattern matches a relative path (both given as strings). -/
def patMatches (pat path : String) : Bool :=
  globMatch pat.toList path.toList

/-- Modelled from the spec: `resolve(root_dir, includes, excludes)`.
`tree` is the enumeration of all regular files under the root directory,
as forward-slash relative paths.  A file is included iff it matches at
least one include pattern and matches no exclude pattern; exclude
patterns always win; the manifest file `manifest.yaml` itself is always
implicitly excluded from dataset content. -/
def resolve (tree includes excludes : List String) : List String :=
  tree.filter (fun f =>
    f ≠ "manifest.yaml" &&
    includes.any (fun p => patMatches p f) &&
    !excludes.any (fun p => patMatches p f))

/-! ## Metadata model (spec section 3) -/

/-- Modelled from the spec: a Person value used for authors/contributors. -/
structure Person where
  name : String
  affiliation : Option String
  orcid : Option String
deriving DecidableEq, Repr

/-- A native (repository-side) field value: either a scalar string or a
list of person records (the shape transform target for authors). -/
inductive NativeValue where
  | str (s : String)
  | persons (ps : List Person)
deriving DecidableEq, Repr

/-- Modelled from the spec: canonical metadata. Required keys
(title, authors, type, access_type) are validated against the active
schema; unrecognized repository-native keys are preserved under the
`custom_fields` sub-mapping.  `doi` and `record_id` are the
server-populated fields. -/
@[ext]
structure Metadata where
  title : Option String
  authors : List Person
  type : Option String
  access_type : Option String
  license : Option String
  doi : Option String
  record_id : Option String
  custom_fields : List (String × String)
deriving DecidableEq, Repr

/-- Modelled from the spec: a schema (template) declares required fields
and controlled vocabularies for enumerations. -/
structure Schema where
  id : String
  typeVocabulary : List String
  accessVocabulary : List String
deriving DecidableEq, Repr

/-- The Zenodo schema; vocabularies are from the Zenodo metadata template
shipped in the repository (`type` and `access_type` controlled
vocabularies). -/
def zenodoSchema : Schema :=
  { id := "zenodo"
    typeVocabulary :=
      ["dataset", "image", "lesson", "physicalobject", "poster",
       "presentation", "publication", "software", "video", "other"]
    accessVocabulary := ["open", "embargoed", "restricted", "closed"] }

/-- The native keys a schema's mapping rules cover (canonical fields are
renamed to these on `to_native`); every other native key is an unknown
field retained in `custom_fields`. -/
def nativeKeys : List String :=
  ["title", "creators", "upload_type", "access_right", "license",
   "doi", "id"]

/-- Modelled from the spec: the first validation failure of a canonical
metadata value against a schema, if any: required fields
(title, authors, type, access_type) must be present, enumerations must
be inside the schema's controlled vocabulary, and custom field keys must
not collide with the native keys covered by the schema's mapping rules. -/
def validationFailure (m : Metadata) (s : Schema) : Option String :=
  if m.title.isNone then some "title"
  else if m.authors.isEmpty then some "authors"
  else if !(m.type.elim false (fun t => s.typeVocabulary.contains t))
    then some "type"
  else if !(m.access_type.elim false
      (fun a => s.accessVocabulary.contains a))
    then some "access_type"
  else if m.custom_fields.any (fun kv => nativeKeys.contains kv.1)
    then some "custom_fields"
  else none

/-- A canonical metadata value is valid under a schema iff no validation
check fails. -/
def validate (m : Metadata) (s : Schema) : Bool :=
  (validationFailure m s).isNone

/-- Emit an optional scalar field under a native key. -/
def optPair (k : String) : Option String → List (String × NativeValue)
  | none => []
  | some v => [(k, NativeValue.str v)]

/-- The native pairs produced by the schema's rename/shape rules:
canonical `authors` becomes native `creators`, canonical `type` becomes
`upload_type`, canonical `access_type` becomes `access_right`. -/
def knownPairs (m : Metadata) : List (String × NativeValue) :=
  optPair "title" m.title ++
  [("creators", NativeValue.persons m.authors)] ++
  optPair "upload_type" m.type ++
  optPair "access_right" m.access_type ++
  optPair "license" m.license ++
  optPair "doi" m.doi ++
  optPair "id" m.record_id

/-- Modelled from the spec: `to_native(canonical_metadata, schema_id)`.
Validation happens here: values outside the vocabulary are rejected with
a validation error, not silently coerced.  Custom fields are re-emitted
verbatim after the mapped fields. -/
def to_native (m : Metadata) (s : Schema) :
    Except FairlyError (List (String × NativeValue)) :=
  match validationFailure m s with
  | some f => Except.error (FairlyError.validationError f)
  | none =>
    Except.ok (knownPairs m ++
      m.custom_fields.map (fun kv => (kv.1, NativeValue.str kv.2)))

/-- Look up a scalar native field. -/
def lookupStr (k : String) (n : List (String × NativeValue)) :
    Option String :=
  match n with
  | [] => none
  | (k2, v) :: rest =>
    if k2 = k then
      match v with
      | NativeValue.str s => some s
      | NativeValue.persons _ => none
    else lookupStr k rest

/-- Look up a person-list native field. -/
def lookupPersons (k : String) (n : List (String × NativeValue)) :
    List Person :=
  match n with
  | [] => []
  | (k2, v) :: rest =>
    if k2 = k then
      match v with
      | NativeValue.persons ps => ps
      | NativeValue.str _ => []
    else lookupPersons k rest

/-- The unknown native fields: pairs whose key is not covered by any
mapping rule, retained verbatim. -/
def unknownFields : List (String × NativeValue) → List (String × String)
  | [] => []
  | (k, v) :: rest =>
    if nativeKeys.contains k then unknownFields rest
    else match v with
      | NativeValue.str s => (k, s) :: unknownFields rest
      | NativeValue.persons _ => unknownFields rest

/-- Modelled from the spec: `from_native(native_dict, schema_id)`.
Known native keys are mapped back to canonical fields; unknown native
fields are retained verbatim in `custom_fields`. -/
def from_native (n : List (String × NativeValue)) (_s : Schema) :
    Metadata :=
  { title := lookupStr "title" n
    authors := lookupPersons "creators" n
    type := lookupStr "upload_type" n
    access_type := lookupStr "access_right" n
    license := lookupStr "license" n
    doi := lookupStr "doi" n
    record_id := lookupStr "id" n
    custom_fields := unknownFields n }

/-- Modelled from the spec: the server populates DOI and record id on the
native record after creation (added only where absent). -/
def addServerFields (n : List (String × NativeValue)) (d rid : String) :
    List (String × NativeValue) :=
  (if (lookupStr "doi" n).isNone then [("doi", NativeValue.str d)] else [])
    ++
  (if (lookupStr "id" n).isNone then [("id", NativeValue.str rid)] else [])
    ++ n

/-! ## Manifest store metadata section (spec sections 4.3 and 6) -/

/-- A value in the persisted manifest document: a scalar, a person list,
or the `custom_fields` sub-mapping. -/
inductive ManifestValue where
  | str (s : String)
  | persons (ps : List Person)
  | customMap (kvs : List (String × String))
deriving DecidableEq, Repr

/-- Emit an optional scalar metadata field under its canonical key. -/
def optMPair (k : String) : Option String → List (String × ManifestValue)
  | none => []
  | some v => [(k, ManifestValue.str v)]

/-- Modelled from the spec: serializing the metadata section of a
manifest.  Canonical keys are written as such; unrecognized
repository-native keys live under the `custom_fields` sub-mapping. -/
def saveMetadataDoc (m : Metadata) : List (String × ManifestValue) :=
  optMPair "title" m.title ++
  [("authors", ManifestValue.persons m.authors)] ++
  optMPair "type" m.type ++
  optMPair "access_type" m.access_type ++
  optMPair "license" m.license ++
  optMPair "doi" m.doi ++
  optMPair "record_id" m.record_id ++
  [("custom_fields", ManifestValue.customMap m.custom_fields)]

/-- Look up a scalar field in a manifest document. -/
def lookupMStr (k : String) : List (String × ManifestValue) → Option String
  | [] => none
  | (k2, v) :: rest =>
    if k2 = k then
      match v with
      | ManifestValue.str s => some s
      | _ => none
    else lookupMStr k rest

/-- Look up the person list in a manifest document. -/
def lookupMPersons (k : String) : List (String × ManifestValue) →
    List Person
  | [] => []
  | (k2, v) :: rest =>
    if k2 = k then
      match v with
      | ManifestValue.persons ps => ps
      | _ => []
    else lookupMPersons k rest

/-- Look up the `custom_fields` sub-mapping in a manifest document. -/
def lookupMCustom (k : String) : List (String × ManifestValue) →
    List (String × String)
  | [] => []
  | (k2, v) :: rest =>
    if k2 = k then
      match v with
      | ManifestValue.customMap kvs => kvs
      | _ => []
    else lookupMCustom k rest

/-- Modelled from the spec: loading the metadata section of a manifest. -/
def loadMetadataDoc (d : List (String × ManifestValue)) : Metadata :=
  { title := lookupMStr "title" d
    authors := lookupMPersons "authors" d
    type := lookupMStr "type" d
    access_type := lookupMStr "access_type" d
    license := lookupMStr "license" d
    doi := lookupMStr "doi" d
    record_id := lookupMStr "record_id" d
    custom_fields := lookupMCustom "custom_fields" d }

/-- Editing an unrelated metadata field: changing the title. -/
def setTitle (t : String) (m : Metadata) : Metadata :=
  { m with title := some t }

/-! ## File entries and the diff sub-operation (spec sections 3, 4.1) -/

/-- Modelled from the spec: a FileEntry with relative path, size, and
content fingerprint. -/
structure FileEntry where
  path : String
  size : Nat
  fingerprint : Nat
deriving DecidableEq, Repr

/-- Classification of the current resolved set against the last-synced
snapshot. -/
structure FileDiff where
  added : List FileEntry
  modified : List FileEntry
  removed : List FileEntry
deriving DecidableEq, Repr

/-- Find the entry for a path in a file set. -/
def findByPath (fs : List FileEntry) (p : String) : Option FileEntry :=
  fs.find? (fun f => f.path = p)

/-- Modelled from the spec: the diff sub-operation.  A path only in the
current set is `added`; a path only in the snapshot is `removed`; a path
in both with a changed size or fingerprint is `modified`. -/
def fileDiff (current snapshot : List FileEntry) : FileDiff :=
  { added := current.filter (fun f => (findByPath snapshot f.path).isNone)
    modified := current.filter (fun f =>
      match findByPath snapshot f.path with
      | some g => f ≠ g
      | none => false)
    removed := snapshot.filter (fun g =>
      (findByPath current g.path).isNone) }

/-! ## Repository client calls and the sync engine (spec sections 4.4, 4.5) -/

/-- The remote repository calls the engine can perform. -/
inductive RemoteCall where
  | getRecord (id : String)
  | createRecord (m : Metadata)
  | uploadFile (f : FileEntry)
  | deleteFile (p : String)
  | updateMetadata (m : Metadata)
  | downloadFile (p : String)
deriving DecidableEq, Repr

/-- File operations (the step-3 transfers of the push algorithm, and
downloads). -/
def RemoteCall.isFileTransfer : RemoteCall → Bool
  | RemoteCall.uploadFile _ => true
  | RemoteCall.deleteFile _ => true
  | RemoteCall.downloadFile _ => true
  | _ => false

/-- Whether a call creates a new remote record. -/
def RemoteCall.isCreate : RemoteCall → Bool
  | RemoteCall.createRecord _ => true
  | _ => false

/-- Calls that mutate the remote repository. -/
def RemoteCall.isMutating : RemoteCall → Bool
  | RemoteCall.createRecord _ => true
  | RemoteCall.uploadFile _ => true
  | RemoteCall.deleteFile _ => true
  | RemoteCall.updateMetadata _ => true
  | _ => false

/-- Modelled from the spec: a RemoteReference linking a local manifest to
a repository record. -/
structure RemoteReference where
  repository_id : String
  remote_id : String
  version : Nat
  url : Option String
deriving DecidableEq, Repr

/-- The state of a remote repository record. -/
structure RemoteRecord where
  published : Bool
  files : List FileEntry
  meta : Metadata
deriving DecidableEq, Repr

/-- The state a sync operation acts on: the local resolved file set and
metadata, the manifest's last-synced snapshot (file fingerprints and
last-synced metadata), and the remote linkage if any. -/
structure SyncState where
  localFiles : List FileEntry
  localMeta : Metadata
  snapshot : List FileEntry
  snapshotMeta : Metadata
  linked : Option (RemoteReference × RemoteRecord)
deriving DecidableEq, Repr

/-- The outcome of a sync operation: the result, the remote calls
performed (in order), whether the metadata-equality check ran, and the
state afterwards. -/
structure OpResult where
  result : Except FairlyError Unit
  calls : List RemoteCall
  metadataChecked : Bool
  state : SyncState

/-- The effect of a performed call on the remote record. -/
def applyCall (r : RemoteRecord) : RemoteCall → RemoteRecord
  | RemoteCall.getRecord _ => r
  | RemoteCall.createRecord m =>
    { published := false, files := [], meta := m }
  | RemoteCall.uploadFile f =>
    { r with files := f :: r.files.filter (fun g => g.path ≠ f.path) }
  | RemoteCall.deleteFile p =>
    { r with files := r.files.filter (fun g => g.path ≠ p) }
  | RemoteCall.updateMetadata m => { r with meta := m }
  | RemoteCall.downloadFile _ => r

/-- The effect of a sequence of performed calls on the remote record. -/
def applyCalls (r : RemoteRecord) (cs : List RemoteCall) : RemoteRecord :=
  cs.foldl applyCall r

/-- The file operations demanded by a diff: upload added and modified
files, delete removed files. -/
def transferCalls (d : FileDiff) : List RemoteCall :=
  d.added.map RemoteCall.uploadFile ++
  d.modified.map RemoteCall.uploadFile ++
  d.removed.map (fun f => RemoteCall.deleteFile f.path)

/-- Modelled from the spec: the push algorithm of section 4.5.
Canonical metadata is validated first — a ValidationError aborts before
any network call; then the remote record state is read and a push
against a published record fails with ConflictError before any mutating
call; then the file operations of the diff run (`failing` says which
file operations fail, modelling transport failures that exhausted the
retry budget) and the remote metadata is updated only if the canonical
metadata changed since the last sync; the new snapshot is persisted only
if all file operations succeeded. -/
def push (s : Schema) (failing : RemoteCall → Bool) (st : SyncState) :
    OpResult :=
  match validationFailure st.localMeta s with
  | some f =>
    { result := Except.error (FairlyError.validationError f)
      calls := [], metadataChecked := false, state := st }
  | none =>
    match st.linked with
    | none =>
      { result := Except.error FairlyError.notFoundError
        calls := [], metadataChecked := false, state := st }
    | some (ref, rec) =>
      if rec.published then
        { result := Except.error
            (FairlyError.conflictError "record is published")
          calls := [RemoteCall.getRecord ref.remote_id]
          metadataChecked := false, state := st }
      else
        let ts := transferCalls (fileDiff st.localFiles st.snapshot)
        if ts.any failing then
          let done := ts.takeWhile (fun c => !failing c)
          { result := Except.error FairlyError.transientNetworkError
            calls := RemoteCall.getRecord ref.remote_id :: done
            metadataChecked := true
            state := { st with linked := some (ref, applyCalls rec done) } }
        else
          let calls := ts ++
            (if st.localMeta = st.snapshotMeta then []
             else [RemoteCall.updateMetadata st.localMeta])
          { result := Except.ok ()
            calls := RemoteCall.getRecord ref.remote_id :: calls
            metadataChecked := true
            state := { st with
              snapshot := st.localFiles
              snapshotMeta := st.localMeta
              linked := some ({ ref with version := ref.version + 1 },
                              applyCalls rec calls) } }

/-- Modelled from the spec and the repository's bug reports: uploading a
local dataset validates its metadata, fails with ConflictError when a
RemoteReference for the repository already exists, and otherwise creates
an unpublished remote record, uploads all files, persists the snapshot
and links the dataset.  Per the bug report in the repository, the
RemoteReference created on upload does not populate the url field
(`remote_dataset.url` returns None).  `newId` is the record id assigned
by the server. -/
def upload (s : Schema) (repoId newId : String) (st : SyncState) :
    OpResult :=
  match validationFailure st.localMeta s with
  | some f =>
    { result := Except.error (FairlyError.validationError f)
      calls := [], metadataChecked := false, state := st }
  | none =>
    match st.linked with
    | some _ =>
      { result := Except.error (FairlyError.conflictError "already linked")
        calls := [], metadataChecked := false, state := st }
    | none =>
      { result := Except.ok ()
        calls := RemoteCall.createRecord st.localMeta ::
          st.localFiles.map RemoteCall.uploadFile
        metadataChecked := false
        state := { st with
          snapshot := st.localFiles
          snapshotMeta := st.localMeta
          linked := some
            ({ repository_id := repoId, remote_id := newId,
               version := 1, url := none },
             { published := false, files := st.localFiles,
               meta := st.localMeta }) } }

/-- Modelled from the spec: pull downloads the remote record's files and
metadata into the local dataset and snapshot; it never mutates the
remote record. -/
def pull (st : SyncState) : OpResult :=
  match st.linked with
  | none =>
    { result := Except.error FairlyError.notFoundError
      calls := [], metadataChecked := false, state := st }
  | some (ref, rec) =>
    { result := Except.ok ()
      calls := RemoteCall.getRecord ref.remote_id ::
        rec.files.map (fun f => RemoteCall.downloadFile f.path)
      metadataChecked := false
      state := { st with
        localFiles := rec.files, localMeta := rec.meta,
        snapshot := rec.files, snapshotMeta := rec.meta } }

/-- The empty canonical metadata. -/
def emptyMetadata : Metadata :=
  { title := none, authors := [], type := none, access_type := none
    license := none, doi := none, record_id := none, custom_fields := [] }

/-- Modelled from the spec: creating a local dataset initializes a
manifest with no remote linkage and an empty snapshot. -/
def createLocal (files : List FileEntry) (m : Metadata) : SyncState :=
  { localFiles := files, localMeta := m, snapshot := []
    snapshotMeta := emptyMetadata, linked := none }

/-- Modelled from the spec: publishing is an explicit external action
(driven through the repository web UI in the current scope); it is the
only transition that sets the Published state. -/
def publishExternal (st : SyncState) : SyncState :=
  match st.linked with
  | none => st
  | some (ref, rec) =>
    { st with linked := some (ref, { rec with published := true }) }

/-- Whether the dataset's remote record is in the Published state. -/
def publishedOf (st : SyncState) : Bool :=
  match st.linked with
  | none => false
  | some (_, rec) => rec.published

/-! ## Backend capability sets (spec section 4.4) -/

/-- The canonical repository-client operations of the spec, plus dataset
deletion, which the client surface exposes and the repository's bug
report exercises. -/
inductive Operation where
  | list_datasets
  | get_dataset
  | create_dataset
  | upload_file
  | delete_file
  | update_metadata
  | download_file
  | publish
  | delete_dataset
deriving DecidableEq, Repr

/-- A backend with its declared capability set. -/
structure Backend where
  id : String
  capabilities : List Operation
deriving DecidableEq, Repr

/-- Modelled from the spec: capability-bounded dispatch — calling an
operation outside the backend's declared capability set fails with a
CapabilityError, not a crash. -/
def callOperation (b : Backend) (op : Operation) :
    Except FairlyError Unit :=
  if b.capabilities.contains op then Except.ok ()
  else Except.error (FairlyError.capabilityError b.id)

/-- The Figshare-style backend: it does not support dataset deletion. -/
def figshareBackend : Backend :=
  { id := "figshare"
    capabilities :=
      [Operation.list_datasets, Operation.get_dataset,
       Operation.create_dataset, Operation.upload_file,
       Operation.delete_file, Operation.update_metadata,
       Operation.download_file, Operation.publish] }

/-- Modelled from the repository's bug report: the Figshare backend, on
dataset deletion, raises the builtin ValueError with message
"Operation not permitted" instead of the typed CapabilityError the spec
requires. -/
def figshareDeleteDataset : Except FairlyError Unit :=
  Except.error (FairlyError.valueError "Operation not permitted")

/-- Modelled from the repository's bug report: opening a remote dataset
directly from a repository URL populates the url attribute with that
URL. -/
def datasetFromUrl (repoId recId u : String) : RemoteReference :=
  { repository_id := repoId, remote_id := recId, version := 1
    url := some u }

/-! ## Concrete instances used to exercise the development -/

/-- A concrete person. -/
def wPerson : Person :=
  { name := "Doe, John", affiliation := some "Zenodo", orcid := none }

/-- A concrete canonical metadata value, valid under the Zenodo schema,
carrying a custom field. -/
def wMeta : Metadata :=
  { title := some "Water level observations", authors := [wPerson]
    type := some "dataset", access_type := some "open"
    license := some "cc-zero", doi := none, record_id := none
    custom_fields := [("Time coverage", "2012-2022")] }

/-- The native dictionary `to_native` produces for `wMeta`. -/
def wNative : List (String × NativeValue) :=
  [("title", NativeValue.str "Water level observations"),
   ("creators", NativeValue.persons [wPerson]),
   ("upload_type", NativeValue.str "dataset"),
   ("access_right", NativeValue.str "open"),
   ("license", NativeValue.str "cc-zero"),
   ("Time coverage", NativeValue.str "2012-2022")]

/-- A concrete metadata value whose access_type is outside the Zenodo
controlled vocabulary. -/
def wBadMeta : Metadata :=
  { wMeta with access_type := some "public" }

/-- A concrete file entry. -/
def wFile : FileEntry := { path := "a.csv", size := 3, fingerprint := 7 }

/-- A failure oracle under which every call succeeds. -/
def wNoFail : RemoteCall → Bool := fun _ => false

/-- A failure oracle under which every file operation fails. -/
def wFailFiles : RemoteCall → Bool := fun c => c.isFileTransfer

/-- A concrete linked, unpublished sync state with one new local file. -/
def wLinkedState : SyncState :=
  { localFiles := [wFile], localMeta := wMeta, snapshot := []
    snapshotMeta := emptyMetadata
    linked := some
      ({ repository_id := "zenodo", remote_id := "1", version := 1,
         url := none },
       { published := false, files := [], meta := wMeta }) }

/-- A concrete linked sync state whose remote record is published. -/
def wPublishedState : SyncState :=
  { wLinkedState with
    linked := some
      ({ repository_id := "zenodo", remote_id := "1", version := 1,
         url := none },
       { published := true, files := [], meta := wMeta }) }

/-- A concrete linked sync state with invalid canonical metadata. -/
def wBadState : SyncState := { wLinkedState with localMeta := wBadMeta }

/-- A concrete published sync state with invalid canonical metadata. -/
def wPublishedInvalidState : SyncState :=
  { wPublishedState with localMeta := wBadMeta }

/-- A concrete failure oracle that fails the upload of the concrete
file. -/
def wFailA : RemoteCall → Bool :=
  fun c => c = RemoteCall.uploadFile wFile

end Fairly

/-! # Theorems -/

namespace Fairly

/-! ## Pattern resolver -/

/-- A file is in the resolved set iff it is a regular file of the tree,
is not the implicitly excluded manifest file, matches at least one
include pattern, and matches no exclude pattern. -/
theorem mem_resolve_iff (tree includes excludes : List String)
    (f : String) :
    f ∈ resolve tree includes excludes ↔
      (f ∈ tree ∧ f ≠ "manifest.yaml" ∧
       includes.any (fun p => patMatches p f) = true ∧
       excludes.any (fun p => patMatches p f) = false) := by
  simp [resolve, List.mem_filter, and_assoc]

/-- C1 (counterexample): the claimed equivalence fails as stated at the
tree consisting of the single file `manifest.yaml` with includes equal
to the single pattern `*` and no excludes: the file matches an include
pattern and no exclude pattern, yet the resolved set is empty, because
the manifest file is always implicitly excluded from dataset content. -/
theorem resolve_claim_counterexample :
    patMatches "*" "manifest.yaml" = true ∧
    (([] : List String).any (fun p => patMatches p "manifest.yaml"))
      = false ∧
    resolve ["manifest.yaml"] ["*"] [] = [] := by decide

/-- C1 (amended): resolve places a file in the included set iff it
matches at least one include pattern and no exclude pattern, except for
the manifest file `manifest.yaml`, which is always implicitly excluded;
in particular a path matched by any exclude pattern is never included,
and the csv scenario resolves to exactly the file `a.csv`. -/
theorem resolve_included_iff :
    (∀ tree includes excludes (f : String),
      f ∈ resolve tree includes excludes ↔
        (f ∈ tree ∧ f ≠ "manifest.yaml" ∧
         includes.any (fun p => patMatches p f) = true ∧
         excludes.any (fun p => patMatches p f) = false)) ∧
    (∀ tree includes excludes (f : String),
      excludes.any (fun p => patMatches p f) = true →
        f ∉ resolve tree includes excludes) ∧
    resolve ["a.csv", "secret.csv", "notes.txt"] ["*.csv"] ["secret.csv"]
      = ["a.csv"] := by
  refine ⟨mem_resolve_iff, ?_, by decide⟩
  intro tree includes excludes f h hf
  rw [mem_resolve_iff] at hf
  rw [hf.2.2.2] at h
  exact Bool.false_ne_true h

/-- Witness for the amended C1: the excluded file of the csv scenario is
indeed kept out of the resolved set. -/
theorem resolve_included_iff_witness :
    "secret.csv" ∉
      resolve ["a.csv", "secret.csv", "notes.txt"] ["*.csv"]
        ["secret.csv"] :=
  resolve_included_iff.2.1 ["a.csv", "secret.csv", "notes.txt"]
    ["*.csv"] ["secret.csv"] "secret.csv" (by decide)

/-! ## Repository client capabilities -/

/-- C6: the Figshare backend's dataset deletion, as documented by the
repository's own bug report, fails with the builtin ValueError
"Operation not permitted", whereas the capability-bounded dispatch the
spec requires fails with a typed CapabilityError for the same
unsupported operation. -/
theorem figshare_delete_not_capability_error :
    figshareDeleteDataset =
      Except.error (FairlyError.valueError "Operation not permitted") ∧
    callOperation figshareBackend Operation.delete_dataset =
      Except.error (FairlyError.capabilityError "figshare") := by
  exact ⟨rfl, by decide⟩

/-! ## Remote dataset url -/

/-- C10: the RemoteReference created by uploading a local dataset does
not populate the url attribute, whereas a remote dataset opened directly
from a repository URL has the url attribute equal to that URL. -/
theorem upload_url_none_from_url_some (s : Schema)
    (repoId newId : String) (st : SyncState)
    (ref : RemoteReference) (rec : RemoteRecord)
    (h0 : st.linked = none)
    (h : (upload s repoId newId st).state.linked = some (ref, rec)) :
    ref.url = none ∧
    ∀ repoId2 recId u, (datasetFromUrl repoId2 recId u).url = some u := by
  refine ⟨?_, fun repoId2 recId u => rfl⟩
  cases hv : validationFailure st.localMeta s with
  | some f =>
    simp [upload, hv] at h
    rw [h0] at h
    cases h
  | none =>
    rw [upload] at h
    rw [hv, h0] at h
    simp at h
    rw [← h.1]

/-! ## Metadata normalizer -/

/-- Unfolding a successful validation into its component checks. -/
theorem validationFailure_none_spec (m : Metadata) (s : Schema)
    (h : validationFailure m s = none) :
    m.title.isSome = true ∧ m.authors.isEmpty = false ∧
    (∃ t, m.type = some t ∧ t ∈ s.typeVocabulary) ∧
    (∃ a, m.access_type = some a ∧ a ∈ s.accessVocabulary) ∧
    m.custom_fields.any (fun kv => nativeKeys.contains kv.1) = false := by
  unfold validationFailure at h
  split_ifs at h with h1 h2 h3 h4 h5
  refine ⟨?_, by simpa using h2, ?_, ?_, ?_⟩
  · have := Option.isSome_iff_ne_none.mpr (by simpa using h1)
    exact this
  · cases ht : m.type with
    | none => rw [ht] at h3; simp at h3
    | some t =>
      rw [ht] at h3
      simp at h3
      exact ⟨t, rfl, h3⟩
  · cases ha : m.access_type with
    | none => rw [ha] at h4; simp at h4
    | some a =>
      rw [ha] at h4
      simp at h4
      exact ⟨a, rfl, h4⟩
  · simpa using h5

/-- Looking up a native key among custom fields whose keys avoid all
native keys yields nothing. -/
theorem lookupStr_fresh (k : String) (hk : nativeKeys.contains k = true)
    (l : List (String × String))
    (h : l.any (fun kv => nativeKeys.contains kv.1) = false) :
    lookupStr k (l.map (fun kv => (kv.1, NativeValue.str kv.2)))
      = none := by
  induction l with
  | nil => rfl
  | cons kv rest ih =>
    simp only [List.any_cons, Bool.or_eq_false_iff] at h
    have hne : kv.1 ≠ k := by
      intro he
      rw [he, hk] at h
      simp at h
    simpa [lookupStr, hne] using ih h.2

/-- Custom fields whose keys avoid all native keys come back verbatim
from the unknown-field extraction. -/
theorem unknownFields_map_str (l : List (String × String))
    (h : l.any (fun kv => nativeKeys.contains kv.1) = false) :
    unknownFields (l.map (fun kv => (kv.1, NativeValue.str kv.2)))
      = l := by
  induction l with
  | nil => rfl
  | cons kv rest ih =>
    simp only [List.any_cons, Bool.or_eq_false_iff] at h
    have h1 : kv.1 ∉ nativeKeys := by simpa using h.1
    simp [unknownFields, h1, ih h.2]

/-- A successful `to_native` is exactly the mapped known pairs followed
by the custom fields, and it certifies validation. -/
theorem to_native_ok (m : Metadata) (s : Schema)
    (n : List (String × NativeValue))
    (h : to_native m s = Except.ok n) :
    validationFailure m s = none ∧
    n = knownPairs m ++
      m.custom_fields.map (fun kv => (kv.1, NativeValue.str kv.2)) := by
  cases hv : validationFailure m s with
  | some f => rw [to_native, hv] at h; cases h
  | none =>
    rw [to_native, hv] at h
    cases h
    exact ⟨rfl, rfl⟩

/-- Core round-trip law: `from_native` inverts a successful `to_native`. -/
theorem from_native_to_native (m : Metadata) (s : Schema)
    (n : List (String × NativeValue))
    (h : to_native m s = Except.ok n) :
    from_native n s = m := by
  obtain ⟨hv, hn⟩ := to_native_ok m s n h
  obtain ⟨hT, _, ⟨t, ht, _⟩, ⟨a, ha, _⟩, hcf⟩ :=
    validationFailure_none_spec m s hv
  obtain ⟨ti, hti⟩ := Option.isSome_iff_exists.mp hT
  have hlic := lookupStr_fresh "license" (by decide) m.custom_fields hcf
  have hdoi := lookupStr_fresh "doi" (by decide) m.custom_fields hcf
  have hid := lookupStr_fresh "id" (by decide) m.custom_fields hcf
  have hcust := unknownFields_map_str m.custom_fields hcf
  subst hn
  rcases hLic : m.license with _ | lic <;>
    rcases hDoi : m.doi with _ | doi <;>
      rcases hRid : m.record_id with _ | rid <;>
  · apply Metadata.ext <;>
      simp +decide [from_native, knownPairs, optPair, hti, ht, ha, hLic,
        hDoi, hRid, lookupStr, lookupPersons, unknownFields, nativeKeys,
        hlic, hdoi, hid, hcust]

/-- C2: for canonical metadata valid under a schema (a successful
`to_native`), `from_native` inverts `to_native`; the server-populated
fields (DOI, record id) may be added to the native record, in which case
the canonical value gains exactly those fields, and a second round trip
still succeeds and never drops them. -/
theorem metadata_roundtrip (m : Metadata) (s : Schema)
    (n : List (String × NativeValue))
    (h : to_native m s = Except.ok n) :
    from_native n s = m ∧
    (m.doi = none → m.record_id = none → ∀ d rid,
      from_native (addServerFields n d rid) s =
        { m with doi := some d, record_id := some rid } ∧
      ∃ n2, to_native { m with doi := some d, record_id := some rid } s
          = Except.ok n2 ∧
        from_native n2 s =
          { m with doi := some d, record_id := some rid }) := by
  have h1 := from_native_to_native m s n h
  refine ⟨h1, fun hd hr d rid => ?_⟩
  have hT := congrArg Metadata.title h1
  have hAu := congrArg Metadata.authors h1
  have hTy := congrArg Metadata.type h1
  have hAc := congrArg Metadata.access_type h1
  have hL := congrArg Metadata.license h1
  have hD := congrArg Metadata.doi h1
  have hR := congrArg Metadata.record_id h1
  have hC := congrArg Metadata.custom_fields h1
  simp only [from_native] at hT hAu hTy hAc hL hD hR hC
  have hdn : lookupStr "doi" n = none := by rw [hD, hd]
  have hin : lookupStr "id" n = none := by rw [hR, hr]
  constructor
  · apply Metadata.ext <;>
      simp +decide [addServerFields, hdn, hin, from_native, lookupStr,
        lookupPersons, unknownFields, nativeKeys, hT, hAu, hTy, hAc, hL,
        hC]
  · have hv2 : validationFailure
        { m with doi := some d, record_id := some rid } s
        = validationFailure m s := rfl
    have hv := (to_native_ok m s n h).1
    have hvn : validationFailure
        { m with doi := some d, record_id := some rid } s = none :=
      hv2.trans hv
    have hok : to_native { m with doi := some d, record_id := some rid } s
        = Except.ok (knownPairs
            { m with doi := some d, record_id := some rid } ++
          (Metadata.custom_fields
            { m with doi := some d, record_id := some rid }).map
              (fun kv => (kv.1, NativeValue.str kv.2))) := by
      rw [to_native, hvn]
    exact ⟨_, hok, from_native_to_native _ s _ hok⟩

/-- Witness for C2: the concrete metadata round-trips through its native
form under the Zenodo schema. -/
theorem metadata_roundtrip_witness :
    to_native wMeta zenodoSchema = Except.ok wNative ∧
    from_native wNative zenodoSchema = wMeta :=
  ⟨by decide, (metadata_roundtrip wMeta zenodoSchema wNative (by decide)).1⟩

/-! ## Manifest store -/

/-- Scalar lookup skips an entry with a different key. -/
theorem lookupMStr_skip (k k2 : String) (v : ManifestValue)
    (rest : List (String × ManifestValue)) (h : k2 ≠ k) :
    lookupMStr k ((k2, v) :: rest) = lookupMStr k rest := by
  simp [lookupMStr, h]

/-- Scalar lookup skips an optional entry with a different key. -/
theorem lookupMStr_opt_skip (k k2 : String) (v : Option String)
    (rest : List (String × ManifestValue)) (h : k2 ≠ k) :
    lookupMStr k (optMPair k2 v ++ rest) = lookupMStr k rest := by
  cases v <;> simp [optMPair, lookupMStr, h]

/-- Scalar lookup finds its own optional entry, absent elsewhere. -/
theorem lookupMStr_opt_here (k : String) (v : Option String)
    (rest : List (String × ManifestValue))
    (h : lookupMStr k rest = none) :
    lookupMStr k (optMPair k v ++ rest) = v := by
  cases v <;> simp [optMPair, lookupMStr, h]

/-- Scalar lookup on the empty document yields nothing. -/
theorem lookupMStr_nil (k : String) :
    lookupMStr k ([] : List (String × ManifestValue)) = none := rfl

/-- Person lookup skips an entry with a different key. -/
theorem lookupMPersons_skip (k k2 : String) (v : ManifestValue)
    (rest : List (String × ManifestValue)) (h : k2 ≠ k) :
    lookupMPersons k ((k2, v) :: rest) = lookupMPersons k rest := by
  simp [lookupMPersons, h]

/-- Person lookup skips an optional entry with a different key. -/
theorem lookupMPersons_opt_skip (k k2 : String) (v : Option String)
    (rest : List (String × ManifestValue)) (h : k2 ≠ k) :
    lookupMPersons k (optMPair k2 v ++ rest) = lookupMPersons k rest := by
  cases v <;> simp [optMPair, lookupMPersons, h]

/-- Person lookup finds its own entry. -/
theorem lookupMPersons_here (k : String) (ps : List Person)
    (rest : List (String × ManifestValue)) :
    lookupMPersons k ((k, ManifestValue.persons ps) :: rest) = ps := by
  simp [lookupMPersons]

/-- Custom-map lookup skips an entry with a different key. -/
theorem lookupMCustom_skip (k k2 : String) (v : ManifestValue)
    (rest : List (String × ManifestValue)) (h : k2 ≠ k) :
    lookupMCustom k ((k2, v) :: rest) = lookupMCustom k rest := by
  simp [lookupMCustom, h]

/-- Custom-map lookup skips an optional entry with a different key. -/
theorem lookupMCustom_opt_skip (k k2 : String) (v : Option String)
    (rest : List (String × ManifestValue)) (h : k2 ≠ k) :
    lookupMCustom k (optMPair k2 v ++ rest) = lookupMCustom k rest := by
  cases v <;> simp [optMPair, lookupMCustom, h]

/-- Custom-map lookup finds its own entry. -/
theorem lookupMCustom_here (k : String) (kvs : List (String × String))
    (rest : List (String × ManifestValue)) :
    lookupMCustom k ((k, ManifestValue.customMap kvs) :: rest) = kvs := by
  simp [lookupMCustom]

/-- Re-loading a saved metadata section reproduces it exactly. -/
theorem loadMetadataDoc_saveMetadataDoc (m : Metadata) :
    loadMetadataDoc (saveMetadataDoc m) = m := by
  apply Metadata.ext <;>
    simp +decide [loadMetadataDoc, saveMetadataDoc, List.append_assoc,
      lookupMStr_skip, lookupMStr_opt_skip, lookupMStr_opt_here,
      lookupMStr_nil, lookupMPersons_skip, lookupMPersons_opt_skip,
      lookupMPersons_here, lookupMCustom_skip, lookupMCustom_opt_skip,
      lookupMCustom_here]

/-- C7: custom fields survive every load, edit-of-other-fields, save,
reload cycle, and `to_native` re-emits them unchanged: reloading a saved
manifest metadata section after a title change leaves `custom_fields`
unchanged (indeed the whole save/load cycle is the identity), and the
unknown native fields of a successful `to_native` are exactly the
canonical custom fields. -/
theorem custom_fields_preserved :
    (∀ d t, (loadMetadataDoc (saveMetadataDoc
        (setTitle t (loadMetadataDoc d)))).custom_fields =
      (loadMetadataDoc d).custom_fields) ∧
    (∀ m, loadMetadataDoc (saveMetadataDoc m) = m) ∧
    (∀ m s n, to_native m s = Except.ok n →
      unknownFields n = m.custom_fields) := by
  refine ⟨?_, loadMetadataDoc_saveMetadataDoc, ?_⟩
  · intro d t
    rw [loadMetadataDoc_saveMetadataDoc]
    rfl
  · intro m s n h
    obtain ⟨hv, hn⟩ := to_native_ok m s n h
    obtain ⟨hT, _, ⟨ty, hty, _⟩, ⟨a, ha, _⟩, hcf⟩ :=
      validationFailure_none_spec m s hv
    obtain ⟨ti, hti⟩ := Option.isSome_iff_exists.mp hT
    have hcust := unknownFields_map_str m.custom_fields hcf
    subst hn
    rcases hLic : m.license with _ | lic <;>
      rcases hDoi : m.doi with _ | doi <;>
        rcases hRid : m.record_id with _ | rid <;>
    · simp +decide [knownPairs, optPair, hti, hty, ha, hLic, hDoi, hRid,
        unknownFields, nativeKeys, hcust]

/-- Witness for C7: the unknown native fields of the concrete metadata's
native form are exactly its custom fields. -/
theorem custom_fields_preserved_witness :
    unknownFields wNative = wMeta.custom_fields :=
  custom_fields_preserved.2.2 wMeta zenodoSchema wNative (by decide)

/-! ## Validation precedes all network calls -/

/-- C8: canonical metadata failing required-field or vocabulary checks is
rejected with a ValidationError at `to_native` time, and both `push` and
`upload` on such metadata fail with ValidationError having performed no
network call at all and having left the state untouched. -/
theorem validation_before_network (m : Metadata) (s : Schema)
    (hv : validate m s = false) :
    (∃ f, to_native m s = Except.error (FairlyError.validationError f)) ∧
    (∀ failing st, st.localMeta = m →
      (∃ f, (push s failing st).result =
          Except.error (FairlyError.validationError f)) ∧
      (push s failing st).calls = [] ∧ (push s failing st).state = st) ∧
    (∀ repoId newId st, st.localMeta = m →
      (∃ f, (upload s repoId newId st).result =
          Except.error (FairlyError.validationError f)) ∧
      (upload s repoId newId st).calls = [] ∧
      (upload s repoId newId st).state = st) := by
  have hf : ∃ f, validationFailure m s = some f := by
    cases hvf : validationFailure m s with
    | none => simp [validate, hvf] at hv
    | some f => exact ⟨f, rfl⟩
  obtain ⟨f, hvf⟩ := hf
  refine ⟨⟨f, by rw [to_native, hvf]⟩, ?_, ?_⟩
  · intro failing st hst
    refine ⟨⟨f, ?_⟩, ?_, ?_⟩ <;> simp [push, hst, hvf]
  · intro repoId newId st hst
    refine ⟨⟨f, ?_⟩, ?_, ?_⟩ <;> simp [upload, hst, hvf]

/-- Witness for C8: pushing or uploading the concrete dataset whose
access_type is outside the Zenodo vocabulary performs no network call. -/
theorem validation_before_network_witness :
    (push zenodoSchema wNoFail wBadState).calls = [] ∧
    (upload zenodoSchema "zenodo" "9"
      (createLocal [wFile] wBadMeta)).calls = [] :=
  have h := validation_before_network wBadMeta zenodoSchema (by decide)
  ⟨(h.2.1 wNoFail wBadState rfl).2.1,
   (h.2.2 "zenodo" "9" (createLocal [wFile] wBadMeta) rfl).2.1⟩

/-! ## Sync engine -/

/-- A non-creating call leaves the publication state unchanged. -/
theorem applyCall_published (r : RemoteRecord) (c : RemoteCall)
    (h : c.isCreate = false) :
    (applyCall r c).published = r.published := by
  cases c <;> first
    | rfl
    | simp [RemoteCall.isCreate] at h

/-- A sequence of non-creating calls leaves the publication state
unchanged. -/
theorem applyCalls_published (cs : List RemoteCall)
    (h : cs.all (fun c => !c.isCreate) = true) :
    ∀ r, (applyCalls r cs).published = r.published := by
  induction cs with
  | nil => intro r; rfl
  | cons c cs ih =>
    intro r
    simp only [List.all_cons, Bool.and_eq_true] at h
    have h1 : c.isCreate = false := by simpa using h.1
    have := ih h.2 (applyCall r c)
    calc (applyCalls r (c :: cs)).published
        = (applyCalls (applyCall r c) cs).published := rfl
      _ = (applyCall r c).published := this
      _ = r.published := applyCall_published r c h1

/-- The file operations of a diff never create a record. -/
theorem transferCalls_noncreate (d : FileDiff) :
    (transferCalls d).all (fun c => !c.isCreate) = true := by
  simp [transferCalls, List.all_append, List.all_map, Function.comp,
    RemoteCall.isCreate]

/-- `takeWhile` preserves a universally satisfied predicate. -/
theorem all_takeWhile (p q : RemoteCall → Bool) (l : List RemoteCall)
    (h : l.all p = true) : (l.takeWhile q).all p = true := by
  induction l with
  | nil => rfl
  | cons c cs ih =>
    simp only [List.all_cons, Bool.and_eq_true] at h
    by_cases hq : q c = true
    · simp [List.takeWhile_cons, hq, h.1, ih h.2]
    · simp [List.takeWhile_cons, hq]

/-- A member of `takeWhile` is a member of the list. -/
theorem mem_of_mem_takeWhile (q : RemoteCall → Bool)
    (l : List RemoteCall) (c : RemoteCall) (h : c ∈ l.takeWhile q) :
    c ∈ l := by
  induction l with
  | nil => cases h
  | cons a as ih =>
    by_cases hq : q a = true
    · rw [List.takeWhile_cons, if_pos hq] at h
      rcases List.mem_cons.mp h with rfl | h2
      · exact List.mem_cons_self _ _
      · exact List.mem_cons_of_mem _ (ih h2)
    · rw [List.takeWhile_cons, if_neg hq] at h
      cases h

/-- Metadata updates are not among the file operations of a diff. -/
theorem updateMetadata_not_transfer (d : FileDiff) (m2 : Metadata) :
    RemoteCall.updateMetadata m2 ∉ transferCalls d := by
  simp [transferCalls, List.mem_append, List.mem_map]

/-- In a path-nodup file set, looking up the path of a member finds that
member. -/
theorem findByPath_self (l : List FileEntry)
    (hnd : (l.map FileEntry.path).Nodup) (f : FileEntry) (hf : f ∈ l) :
    findByPath l f.path = some f := by
  induction l with
  | nil => cases hf
  | cons g gs ih =>
    simp only [List.map_cons, List.nodup_cons] at hnd
    rcases List.mem_cons.mp hf with rfl | hf2
    · simp only [findByPath]
      rw [List.find?_cons_of_pos _ (by simp)]
    · have hne : g.path ≠ f.path := by
        intro he
        exact hnd.1 (he ▸ List.mem_map_of_mem FileEntry.path hf2)
      have htail := ih hnd.2 hf2
      simp only [findByPath] at htail ⊢
      rw [List.find?_cons_of_neg]
      · exact htail
      · simp [hne]

/-- The diff of a path-nodup file set against itself is empty. -/
theorem fileDiff_self (l : List FileEntry)
    (hnd : (l.map FileEntry.path).Nodup) :
    fileDiff l l = { added := [], modified := [], removed := [] } := by
  unfold fileDiff
  simp only [FileDiff.mk.injEq]
  refine ⟨?_, ?_, ?_⟩ <;>
    · rw [List.filter_eq_nil_iff]
      intro f hf
      simp [findByPath_self l hnd f hf]

/-- An empty diff demands no file operations. -/
theorem transferCalls_empty :
    transferCalls { added := [], modified := [], removed := [] } = [] :=
  rfl

/-- What a successful push did: the state was linked and unpublished,
validation passed, every file operation succeeded, and the new snapshot
was persisted. -/
theorem push_ok_spec (s : Schema) (failing : RemoteCall → Bool)
    (st : SyncState) (h : (push s failing st).result = Except.ok ()) :
    validationFailure st.localMeta s = none ∧
    ∃ ref rec, st.linked = some (ref, rec) ∧ rec.published = false ∧
      (transferCalls (fileDiff st.localFiles st.snapshot)).any failing
        = false ∧
      (push s failing st).state = { st with
        snapshot := st.localFiles
        snapshotMeta := st.localMeta
        linked := some ({ ref with version := ref.version + 1 },
          applyCalls rec
            (transferCalls (fileDiff st.localFiles st.snapshot) ++
              (if st.localMeta = st.snapshotMeta then []
               else [RemoteCall.updateMetadata st.localMeta]))) } := by
  cases hv : validationFailure st.localMeta s with
  | some f => simp [push, hv] at h
  | none =>
    cases hl : st.linked with
    | none => simp [push, hv, hl] at h
    | some pr =>
      obtain ⟨ref, rec⟩ := pr
      cases hp : rec.published with
      | true => simp [push, hv, hl, hp] at h
      | false =>
        cases hts : (transferCalls
            (fileDiff st.localFiles st.snapshot)).any failing with
        | true => simp [push, hv, hl, hp, hts] at h
        | false =>
          exact ⟨rfl, ref, rec, rfl, hp, rfl,
            by simp [push, hv, hl, hp, hts]⟩

/-- A metadata-update call is performed only when the canonical metadata
changed since the last sync. -/
theorem updateMetadata_only_if_changed (s : Schema)
    (failing : RemoteCall → Bool) (st : SyncState) (m2 : Metadata)
    (h : RemoteCall.updateMetadata m2 ∈ (push s failing st).calls) :
    st.localMeta ≠ st.snapshotMeta := by
  intro he
  cases hv : validationFailure st.localMeta s with
  | some f => simp [push, hv] at h
  | none =>
    cases hl : st.linked with
    | none => simp [push, hv, hl] at h
    | some pr =>
      obtain ⟨ref, rec⟩ := pr
      cases hp : rec.published with
      | true => simp [push, hv, hl, hp] at h
      | false =>
        cases hts : (transferCalls
            (fileDiff st.localFiles st.snapshot)).any failing with
        | true =>
          simp [push, hv, hl, hp, hts] at h
          exact updateMetadata_not_transfer _ m2
            (mem_of_mem_takeWhile _ _ _ h)
        | false =>
          simp only [push, hv, hl, hp, hts] at h
          rw [if_pos he] at h
          simp at h
          exact updateMetadata_not_transfer _ m2 h

/-- C3: after a successful push, a second push with no intervening local
changes performs zero network file-transfer calls, still performs the
metadata-equality check, and succeeds; and in general the remote
metadata is updated only if the canonical metadata changed since the
last sync. -/
theorem push_idempotent (s : Schema) (f1 f2 : RemoteCall → Bool)
    (st : SyncState)
    (hnd : (st.localFiles.map FileEntry.path).Nodup)
    (h : (push s f1 st).result = Except.ok ()) :
    (push s f2 (push s f1 st).state).calls.filter
        RemoteCall.isFileTransfer = [] ∧
    (push s f2 (push s f1 st).state).metadataChecked = true ∧
    (push s f2 (push s f1 st).state).result = Except.ok () ∧
    (∀ st2 f3 m2,
      RemoteCall.updateMetadata m2 ∈ (push s f3 st2).calls →
        st2.localMeta ≠ st2.snapshotMeta) := by
  obtain ⟨hv, ref, rec, hl, hp, hts, hstate⟩ := push_ok_spec s f1 st h
  have hall : (transferCalls (fileDiff st.localFiles st.snapshot) ++
      (if st.localMeta = st.snapshotMeta then []
       else [RemoteCall.updateMetadata st.localMeta])).all
        (fun c => !c.isCreate) = true := by
    rw [List.all_append, transferCalls_noncreate, Bool.true_and]
    split <;> simp [RemoteCall.isCreate]
  have hp2 := (applyCalls_published _ hall rec).trans hp
  rw [hstate]
  refine ⟨?_, ?_, ?_, fun st2 f3 m2 hm =>
    updateMetadata_only_if_changed s f3 st2 m2 hm⟩ <;>
    simp [push, hv, hp2, fileDiff_self st.localFiles hnd,
      transferCalls_empty, RemoteCall.isFileTransfer]

/-- Witness for C3: on the concrete linked dataset, the second of two
consecutive pushes performs no file-transfer call yet checks metadata
equality and succeeds. -/
theorem push_idempotent_witness :
    (push zenodoSchema wNoFail
        (push zenodoSchema wNoFail wLinkedState).state).calls.filter
      RemoteCall.isFileTransfer = [] ∧
    (push zenodoSchema wNoFail
        (push zenodoSchema wNoFail wLinkedState).state).metadataChecked
      = true :=
  have h := push_idempotent zenodoSchema wNoFail wNoFail wLinkedState
    (by decide) (by decide)
  ⟨h.1, h.2.1⟩

/-- A push that changed the persisted snapshot succeeded, with every
file operation succeeding. -/
theorem push_snapshot_change (s : Schema) (failing : RemoteCall → Bool)
    (st2 : SyncState)
    (hne : (push s failing st2).state.snapshot ≠ st2.snapshot) :
    (push s failing st2).result = Except.ok () ∧
    (transferCalls (fileDiff st2.localFiles st2.snapshot)).any failing
      = false := by
  cases hv : validationFailure st2.localMeta s with
  | some f => exact absurd (by simp [push, hv]) hne
  | none =>
    cases hl : st2.linked with
    | none => exact absurd (by simp [push, hv, hl]) hne
    | some pr =>
      obtain ⟨ref, rec⟩ := pr
      cases hp : rec.published with
      | true => exact absurd (by simp [push, hv, hl, hp]) hne
      | false =>
        cases hts : (transferCalls
            (fileDiff st2.localFiles st2.snapshot)).any failing with
        | true => exact absurd (by simp [push, hv, hl, hp, hts]) hne
        | false => exact ⟨by simp [push, hv, hl, hp, hts], rfl⟩

/-- C5: when any file operation of a push fails, the manifest's
previously persisted snapshot (files and metadata) is left unchanged and
the push does not succeed, so a retry resumes from the same diff
baseline; the snapshot is changed only by a push in which every file
operation succeeded. -/
theorem push_file_op_failure (s : Schema) (failing : RemoteCall → Bool)
    (st : SyncState)
    (h : (transferCalls (fileDiff st.localFiles st.snapshot)).any failing
      = true) :
    (push s failing st).state.snapshot = st.snapshot ∧
    (push s failing st).state.snapshotMeta = st.snapshotMeta ∧
    (push s failing st).state.localFiles = st.localFiles ∧
    (push s failing st).state.localMeta = st.localMeta ∧
    (∃ e, (push s failing st).result = Except.error e) ∧
    (∀ st2, (push s failing st2).state.snapshot ≠ st2.snapshot →
      ((push s failing st2).result = Except.ok () ∧
       (transferCalls (fileDiff st2.localFiles st2.snapshot)).any failing
         = false)) := by
  cases hv : validationFailure st.localMeta s with
  | some f =>
    refine ⟨by simp [push, hv], by simp [push, hv], by simp [push, hv],
      by simp [push, hv], ⟨FairlyError.validationError f,
        by simp [push, hv]⟩,
      fun st2 hne => push_snapshot_change s failing st2 hne⟩
  | none =>
    cases hl : st.linked with
    | none =>
      refine ⟨by simp [push, hv, hl], by simp [push, hv, hl],
        by simp [push, hv, hl], by simp [push, hv, hl],
        ⟨FairlyError.notFoundError, by simp [push, hv, hl]⟩,
        fun st2 hne => push_snapshot_change s failing st2 hne⟩
    | some pr =>
      obtain ⟨ref, rec⟩ := pr
      cases hp : rec.published with
      | true =>
        refine ⟨by simp [push, hv, hl, hp], by simp [push, hv, hl, hp],
          by simp [push, hv, hl, hp], by simp [push, hv, hl, hp],
          ⟨FairlyError.conflictError "record is published",
            by simp [push, hv, hl, hp]⟩,
          fun st2 hne => push_snapshot_change s failing st2 hne⟩
      | false =>
        refine ⟨by simp [push, hv, hl, hp, h], by simp [push, hv, hl, hp, h],
          by simp [push, hv, hl, hp, h], by simp [push, hv, hl, hp, h],
          ⟨FairlyError.transientNetworkError,
            by simp [push, hv, hl, hp, h]⟩,
          fun st2 hne => push_snapshot_change s failing st2 hne⟩

/-- Witness for C5: on the concrete linked dataset with a failing upload,
the push fails and the persisted snapshot is unchanged. -/
theorem push_file_op_failure_witness :
    (push zenodoSchema wFailA wLinkedState).state.snapshot
      = wLinkedState.snapshot :=
  (push_file_op_failure zenodoSchema wFailA wLinkedState (by decide)).1

/-- C4 (counterexample): the claim fails as stated when the canonical
metadata is itself invalid: pushing the concrete dataset whose remote
record is published but whose access_type is outside the vocabulary
raises ValidationError, not ConflictError, because metadata validation
runs before any network interaction. -/
theorem push_published_counterexample :
    (push zenodoSchema wNoFail wPublishedInvalidState).result =
      Except.error (FairlyError.validationError "access_type") := by
  decide

/-- C4 (amended): for a dataset with valid canonical metadata whose
RemoteReference points at a published remote record, push fails with
ConflictError, performs no mutating call, and leaves the state
unchanged. -/
theorem push_published_conflict (s : Schema)
    (failing : RemoteCall → Bool) (st : SyncState)
    (ref : RemoteReference) (rec : RemoteRecord)
    (hv : validate st.localMeta s = true)
    (hl : st.linked = some (ref, rec)) (hp : rec.published = true) :
    (push s failing st).result =
      Except.error (FairlyError.conflictError "record is published") ∧
    (push s failing st).calls.filter RemoteCall.isMutating = [] ∧
    (push s failing st).state = st := by
  have hv2 : validationFailure st.localMeta s = none := by
    cases hvf : validationFailure st.localMeta s with
    | none => rfl
    | some f => simp [validate, hvf] at hv
  refine ⟨?_, ?_, ?_⟩ <;>
    simp [push, hv2, hl, hp, RemoteCall.isMutating]

/-- Witness for C4 (amended): pushing the concrete valid dataset against
its published remote record performs no mutating call. -/
theorem push_published_conflict_witness :
    (push zenodoSchema wNoFail wPublishedState).calls.filter
      RemoteCall.isMutating = [] :=
  (push_published_conflict zenodoSchema wNoFail wPublishedState
    { repository_id := "zenodo", remote_id := "1", version := 1,
      url := none }
    { published := true, files := [], meta := wMeta }
    (by decide) rfl rfl).2.1

/-- C9: no sync-engine operation ever transitions a dataset to the
Published state: creating a local dataset yields an unpublished state,
and upload, push and pull all leave the publication state exactly as it
was; publishing happens only through the explicit external action. -/
theorem engine_never_publishes :
    (∀ files m, publishedOf (createLocal files m) = false) ∧
    (∀ s repoId newId st,
      publishedOf (upload s repoId newId st).state = publishedOf st) ∧
    (∀ s failing st,
      publishedOf (push s failing st).state = publishedOf st) ∧
    (∀ st, publishedOf (pull st).state = publishedOf st) := by
  refine ⟨fun files m => rfl, ?_, ?_, ?_⟩
  · intro s repoId newId st
    cases hv : validationFailure st.localMeta s with
    | some f => simp [upload, hv]
    | none =>
      cases hl : st.linked with
      | none => simp [upload, hv, hl, publishedOf]
      | some pr => simp [upload, hv, hl]
  · intro s failing st
    cases hv : validationFailure st.localMeta s with
    | some f => simp [push, hv]
    | none =>
      cases hl : st.linked with
      | none => simp [push, hv, hl]
      | some pr =>
        obtain ⟨ref, rec⟩ := pr
        cases hp : rec.published with
        | true => simp [push, hv, hl, hp]
        | false =>
          cases hts : (transferCalls
              (fileDiff st.localFiles st.snapshot)).any failing with
          | true =>
            have hall := all_takeWhile (fun c => !c.isCreate)
              (fun c => !failing c)
              (transferCalls (fileDiff st.localFiles st.snapshot))
              (transferCalls_noncreate _)
            simp [push, hv, hl, hp, hts, publishedOf,
              applyCalls_published _ hall rec]
          | false =>
            have hall : (transferCalls
                (fileDiff st.localFiles st.snapshot) ++
                (if st.localMeta = st.snapshotMeta then []
                 else [RemoteCall.updateMetadata st.localMeta])).all
                  (fun c => !c.isCreate) = true := by
              rw [List.all_append, transferCalls_noncreate,
                Bool.true_and]
              split <;> simp [RemoteCall.isCreate]
            simp [push, hv, hl, hp, hts, publishedOf,
              applyCalls_published _ hall rec]
  · intro st
    cases hl : st.linked with
    | none => simp [pull, hl]
    | some pr => obtain ⟨ref, rec⟩ := pr; simp [pull, hl, publishedOf]

/-- Witness for C10: a concrete upload of a fresh local dataset yields a
linked RemoteReference whose url is None. -/
theorem upload_url_none_witness :
    ({ repository_id := "zenodo", remote_id := "9", version := 1,
       url := none } : RemoteReference).url = none :=
  (upload_url_none_from_url_some zenodoSchema "zenodo" "9"
    (createLocal [wFile] wMeta)
    { repository_id := "zenodo", remote_id := "9", version := 1,
      url := none }
    { published := false, files := [wFile], meta := wMeta }
    (by decide) (by decide)).1

end Fairly
